/-
  Verification of the ilfree VPN-manager bot core against its specification.

  Shallow embedding of the relevant source files:
    - tgbot/services/outline_server_api.py  (OutlineVPN client)
    - tgbot/models/outline_server.py        (persistence + reconciliation)
    - tgbot/models/telegram_object.py       (ChatMember CRUD)
    - tgbot/middlewares/dbmiddleware.py     (membership tracker)
    - tgbot/handlers/private/manage_outline_server.py (conversation FSM)

  Conventions: server ip addresses are stored as the integer value of the
  address (the IPAddressType column stores int(value)); machine integers are
  Nat; fallible Python code is modelled with Except, where Except.error ()
  stands for a raised exception reaching that point.
-/
import Mathlib

namespace Ilfree

/-- Embedding of the OutlineKey frozen dataclass of outline_server_api.py:
    equality and hashing compare all seven fields. -/
structure OutlineKey where
  key_id : Nat
  name : String
  password : String
  port : Nat
  method : String
  access_url : String
  used_bytes : Nat
deriving DecidableEq, Repr

/-- Embedding of the ServerKey ORM row of outline_server.py
    (composite primary key: server_ip, key_id). -/
structure ServerKey where
  server_ip : Nat
  key_id : Nat
  name : String
  password : String
  port : Nat
  method : String
  access_url : String
  used_bytes : Nat
deriving DecidableEq, Repr

/-- Embedding of the OutlineServer ORM row of outline_server.py
    (primary key: ip). -/
structure OutlineServer where
  ip : Nat
  url : String
  name : String
  is_active : Bool
deriving DecidableEq, Repr

/-- The persisted state touched by the claims: the outline_server table and
    the server_key table, each as a list of rows. -/
structure Db where
  servers : List OutlineServer
  keys : List ServerKey
deriving DecidableEq, Repr

/-- One HTTP response as observed by the OutlineVPN client: a status code and
    a parsed JSON body, where body = none models a body on which
    response.json() raises. -/
structure HttpResponse (β : Type) where
  status : Nat
  body : Option β
deriving DecidableEq, Repr

/-- One element of the accessKeys array. int(key.get("id")) is modelled as a
    Nat id. -/
structure RawAccessKey where
  id : Nat
  name : String
  password : String
  port : Nat
  method : String
  accessUrl : String
deriving DecidableEq, Repr

/-- Parsed JSON document of GET /access-keys/ : accessKeys = none models a
    document in which the accessKeys field is missing (then the metrics fetch
    is skipped and get_keys raises). -/
structure KeysDoc where
  accessKeys : Option (List RawAccessKey)
deriving DecidableEq, Repr

/-- Parsed JSON document of GET /metrics/transfer :
    bytesTransferredByUserId = none models a truthy (nonempty) parsed dict
    that lacks the bytesTransferredByUserId field. On such a document
    metrics.get("bytesTransferredByUserId").get(...) raises AttributeError
    inside the per-key loop of get_keys, so only when at least one access key
    is present; with an empty access-key list the loop body never runs and
    get_keys returns the empty list. The falsy empty dict, on which
    get_transferred_data itself raises, is modelled like an unparsable body
    (HttpResponse.body = none), which has the same raising outcome. -/
structure MetricsDoc where
  bytesTransferredByUserId : Option (List (Nat × Nat))
deriving DecidableEq, Repr

/-- Python dict .get on the per-key transferred-bytes table. -/
def metricsLookup (tbl : List (Nat × Nat)) (i : Nat) : Option Nat :=
  (tbl.find? (fun p => p.fst == i)).map (fun p => p.snd)

/-- Embedding of OutlineVPN.get_keys. The two arguments are the outcomes of
    the GET on the keys url and the GET on the metrics url; the outer none
    models the transport itself raising. Every path on which the Python code
    raises (non-200 status, unparsable body, missing accessKeys, failed
    metrics fetch) is Except.error (). A metrics document lacking
    bytesTransferredByUserId raises AttributeError only inside the loop over
    the access keys: with a nonempty key list the first iteration raises,
    but with an empty key list the loop never runs and get_keys returns the
    empty list as a success. -/
def get_keys (keysResp : Option (HttpResponse KeysDoc))
    (metricsResp : Option (HttpResponse MetricsDoc)) : Except Unit (List OutlineKey) :=
  match keysResp with
  | none => Except.error ()
  | some kr =>
    match (if kr.status = 200 then kr.body else none) with
    | none => Except.error ()
    | some doc =>
      match doc.accessKeys with
      | none => Except.error ()
      | some raws =>
        match metricsResp with
        | none => Except.error ()
        | some mr =>
          match (if mr.status = 200 then mr.body else none) with
          | none => Except.error ()
          | some m =>
            match m.bytesTransferredByUserId with
            | none =>
              match raws with
              | [] => Except.ok []
              | _ :: _ => Except.error ()
            | some tbl =>
              Except.ok (raws.map (fun k =>
                { key_id := k.id
                  name := k.name
                  password := k.password
                  port := k.port
                  method := k.method
                  access_url := k.accessUrl
                  used_bytes := (metricsLookup tbl k.id).getD 0 }))

/-- Embedding of OutlineVPN.delete_key: success iff the DELETE response
    status is 204. -/
def delete_key (respStatus : Nat) : Bool :=
  respStatus == 204

/-- Embedding of server_read: SELECT the server row whose primary key equals
    the given ip. -/
def server_read (db : Db) (ip : Nat) : Option OutlineServer :=
  db.servers.find? (fun s => s.ip == ip)

/-- Rows of the server_key table belonging to one server (the WHERE clause of
    server_key_list). -/
def serverRows (rows : List ServerKey) (server_ip : Nat) : List ServerKey :=
  rows.filter (fun r => decide (r.server_ip = server_ip))

instance : DecidableRel (fun a b : ServerKey => a.name ≤ b.name) :=
  fun a b => inferInstanceAs (Decidable (a.name ≤ b.name))

/-- Embedding of server_key_list: the rows of one server, ORDER BY name. -/
def server_key_list (db : Db) (server_ip : Nat) : List ServerKey :=
  List.insertionSort (fun a b => a.name ≤ b.name) (serverRows db.keys server_ip)

/-- The OutlineKey view of a ServerKey row, exactly the seven fields copied
    by server_key_sync into its db_keys list. -/
def toOutlineKey (r : ServerKey) : OutlineKey :=
  { key_id := r.key_id
    name := r.name
    password := r.password
    port := r.port
    method := r.method
    access_url := r.access_url
    used_bytes := r.used_bytes }

/-- Row built by the INSERT statement of server_key_sync from a remote key. -/
def rowOfKey (server_ip : Nat) (k : OutlineKey) : ServerKey :=
  { server_ip := server_ip
    key_id := k.key_id
    name := k.name
    password := k.password
    port := k.port
    method := k.method
    access_url := k.access_url
    used_bytes := k.used_bytes }

/-- Field overwrite performed by the UPDATE statement of server_key_sync:
    name, password, port, method, access_url, used_bytes are set from the
    remote key; server_ip and key_id are untouched. -/
def updRow (r : ServerKey) (k : OutlineKey) : ServerKey :=
  { r with
    name := k.name
    password := k.password
    port := k.port
    method := k.method
    access_url := k.access_url
    used_bytes := k.used_bytes }

/-- Python set(...) on a list of OutlineKey: duplicates (by full-field
    equality) removed. -/
def pySet (l : List OutlineKey) : List OutlineKey :=
  l.dedup

/-- Python set difference set(a) - set(b) on OutlineKey lists. -/
def pyDiff (a b : List OutlineKey) : List OutlineKey :=
  a.dedup.filter (fun x => decide (x ∉ b))

/-- The db_keys list of server_key_sync: the persisted rows of the server,
    re-read through server_key_list and converted to OutlineKey. -/
def db_keys_of (db : Db) (server_ip : Nat) : List OutlineKey :=
  (server_key_list db server_ip).map toOutlineKey

/-- insert_values of server_key_sync: remote keys whose id is absent from the
    persisted id list, as a Python set. -/
def sync_insert_values (db : Db) (server_ip : Nat) (vpn_keys : List OutlineKey) : List OutlineKey :=
  pySet (vpn_keys.filter
    (fun k => decide (k.key_id ∉ (db_keys_of db server_ip).map OutlineKey.key_id)))

/-- keys_to_delete of server_key_sync: persisted keys whose id is absent from
    the remote id list, as a Python set. -/
def sync_keys_to_delete (db : Db) (server_ip : Nat) (vpn_keys : List OutlineKey) : List OutlineKey :=
  pySet ((db_keys_of db server_ip).filter
    (fun k => decide (k.key_id ∉ vpn_keys.map OutlineKey.key_id)))

/-- keys_to_update of server_key_sync, exactly as in the source:
    set(vpn_keys) - set(keys_to_delete) - set(db_keys). -/
def sync_keys_to_update (db : Db) (server_ip : Nat) (vpn_keys : List OutlineKey) : List OutlineKey :=
  pyDiff (pyDiff vpn_keys (sync_keys_to_delete db server_ip vpn_keys)) (db_keys_of db server_ip)

/-- The DELETE loop of server_key_sync: one DELETE ... WHERE server_ip = s AND
    key_id = k.key_id per key. -/
def applyDeletes (server_ip : Nat) (ks : List OutlineKey) (rows : List ServerKey) : List ServerKey :=
  ks.foldl
    (fun acc k => acc.filter (fun r => decide (¬(r.server_ip = server_ip ∧ r.key_id = k.key_id))))
    rows

/-- Effect of one UPDATE statement on one row. -/
def applyUpd1 (server_ip : Nat) (k : OutlineKey) (r : ServerKey) : ServerKey :=
  if r.server_ip = server_ip ∧ r.key_id = k.key_id then updRow r k else r

/-- The UPDATE loop of server_key_sync: one UPDATE ... WHERE server_ip = s AND
    key_id = k.key_id per key. -/
def applyUpdates (server_ip : Nat) (ks : List OutlineKey) (rows : List ServerKey) : List ServerKey :=
  ks.foldl (fun acc k => acc.map (applyUpd1 server_ip k)) rows

/-- Cumulative effect of the UPDATE loop on a single row. -/
def applyUpdAll (server_ip : Nat) (ks : List OutlineKey) (r : ServerKey) : ServerKey :=
  ks.foldl (fun r k => applyUpd1 server_ip k r) r

/-- The server_key table after the three write batches of server_key_sync:
    the single multi-row INSERT (issued only when insert_values is nonempty),
    then the DELETE loop, then the UPDATE loop. -/
def sync_rows (db : Db) (server_ip : Nat) (vpn_keys : List OutlineKey) : List ServerKey :=
  applyUpdates server_ip (sync_keys_to_update db server_ip vpn_keys)
    (applyDeletes server_ip (sync_keys_to_delete db server_ip vpn_keys)
      (if (sync_insert_values db server_ip vpn_keys).isEmpty then db.keys
       else db.keys ++ (sync_insert_values db server_ip vpn_keys).map (rowOfKey server_ip)))

/-- Return value of server_key_sync: False on a missing server (failure), a
    key list otherwise. -/
inductive SyncResult
  | failure
  | keys (ks : List ServerKey)
deriving DecidableEq, Repr

/-- Observable outcome of one server_key_sync call: the returned value, the
    database afterwards, and the three write batches it issued. -/
structure SyncOutcome where
  result : SyncResult
  db : Db
  insert_values : List OutlineKey
  keys_to_delete : List OutlineKey
  keys_to_update : List OutlineKey
deriving DecidableEq, Repr

/-- Embedding of server_key_sync. A missing server returns False with no
    writes. When get_keys raises, the except block swallows the exception and
    the finally block returns the previous persisted list, with no writes.
    On success the three batches are applied and the refreshed list is
    returned (again through the finally block). -/
def server_key_sync (db : Db) (server_ip : Nat)
    (keysResp : Option (HttpResponse KeysDoc))
    (metricsResp : Option (HttpResponse MetricsDoc)) : SyncOutcome :=
  match server_read db server_ip with
  | none =>
    { result := SyncResult.failure, db := db
      insert_values := [], keys_to_delete := [], keys_to_update := [] }
  | some _ =>
    match get_keys keysResp metricsResp with
    | Except.error _ =>
      { result := SyncResult.keys (server_key_list db server_ip), db := db
        insert_values := [], keys_to_delete := [], keys_to_update := [] }
    | Except.ok vpn_keys =>
      let db3 : Db := { servers := db.servers, keys := sync_rows db server_ip vpn_keys }
      { result := SyncResult.keys (server_key_list db3 server_ip)
        db := db3
        insert_values := sync_insert_values db server_ip vpn_keys
        keys_to_delete := sync_keys_to_delete db server_ip vpn_keys
        keys_to_update := sync_keys_to_update db server_ip vpn_keys }

/-- Observable outcome of server_key_delete: the returned bool and the
    database afterwards. -/
structure DeleteOutcome where
  ok : Bool
  db : Db
deriving DecidableEq, Repr

/-- Embedding of server_key_delete: read the server; call the remote delete;
    only when the remote delete reports success (status 204) delete the local
    row, returning True iff a row was actually removed. -/
def server_key_delete (db : Db) (server_ip : Nat) (key_id : Nat)
    (remoteStatus : Nat) : DeleteOutcome :=
  match server_read db server_ip with
  | none => { ok := false, db := db }
  | some _ =>
    if delete_key remoteStatus then
      let remaining := db.keys.filter
        (fun r => decide (¬(r.server_ip = server_ip ∧ r.key_id = key_id)))
      { ok := decide (remaining.length ≠ db.keys.length),
        db := { db with keys := remaining } }
    else { ok := false, db := db }

/-- The mode argument of servers_list. -/
inductive ListMode
  | all
  | active
  | inactive
deriving DecidableEq, Repr

/-- Value of the Python expression (OutlineServer.is_active is True): an
    identity comparison between a SQLAlchemy Column object and the bool True,
    which is always the Python constant False, so the WHERE clause built from
    it matches no row. -/
def columnIsActiveIsTrue : Bool := false

/-- Value of the Python expression (OutlineServer.is_active is False):
    likewise always the Python constant False. -/
def columnIsActiveIsFalse : Bool := false

/-- Embedding of servers_list: mode all takes no WHERE clause; the active and
    inactive modes add a WHERE clause built from the constants above. -/
def servers_list (db : Db) (mode : ListMode) : List OutlineServer :=
  match mode with
  | ListMode.all => db.servers
  | ListMode.active => db.servers.filter (fun _ => columnIsActiveIsTrue)
  | ListMode.inactive => db.servers.filter (fun _ => columnIsActiveIsFalse)

/-- Request issued by OutlineVPN.add_data_limit: target url and the bytes
    value placed in the limit body. -/
structure DataLimitRequest where
  url : String
  limit_bytes : Nat
deriving DecidableEq, Repr

/-- Embedding of the request construction in OutlineVPN.add_data_limit. The
    source interpolates only key_id: the text self.__keys_url appears inside
    the string literal without surrounding braces, so the produced url starts
    with that literal text and the api_url argument is never used. -/
def add_data_limit_request (api_url : String) (key_id : Nat)
    (limit_bytes : Nat) : DataLimitRequest :=
  { url := "self.__keys_url/" ++ toString key_id ++ "/data-limit"
    limit_bytes := limit_bytes }

/-- Success predicate of add_data_limit: status 204. -/
def add_data_limit_ok (respStatus : Nat) : Bool :=
  respStatus == 204

/-- Modelled from the spec: the url that the external-interface table of the
    spec prescribes for the set-data-limit operation, relative to the base
    management url of the server. -/
def spec_data_limit_url (api_url : String) (key_id : Nat) : String :=
  api_url ++ "/access-keys/" ++ toString key_id ++ "/data-limit"

/-- States of the ManageServer StatesGroup, plus the idle state reached by
    state.finish(). -/
inductive MState
  | idle
  | enter_name
  | update_name
  | enter_ip
  | update_ip
  | enter_url
  | update_url
  | enter_key_name
  | update_key_name
deriving DecidableEq, Repr

/-- The pending-field bag held in the FSMContext proxy: every key that the
    manage_outline_server handlers store, each absent until written. -/
structure FSMData where
  server_name : Option String := none
  server_ip : Option String := none
  server_url : Option String := none
  message_id : Option Nat := none
  chat_id : Option Int := none
  key_id : Option Nat := none
deriving DecidableEq, Repr

/-- One conversation-scope state: the aiogram state tag plus the proxy data. -/
structure FSMState where
  tag : MState
  data : FSMData
deriving DecidableEq, Repr

/-- An IPv4 address as four octets. -/
structure IpV4 where
  a : Nat
  b : Nat
  c : Nat
  d : Nat
deriving DecidableEq, Repr

/-- Split a character list at every dot, mirroring the
    addr.split with a dot separator performed by the Python ipaddress
    module. -/
def splitOnDot (l : List Char) : List (List Char) :=
  match l with
  | [] => [[]]
  | c :: rest =>
    match splitOnDot rest, decide (c = '.') with
    | r, true => [] :: r
    | [], false => [[c]]
    | h :: t, false => (c :: h) :: t

/-- One dotted-quad component: one to three digits, value at most 255, no
    leading zero (as rejected by the Python ipaddress module). -/
def parseOctet (cs : List Char) : Option Nat :=
  if cs.length = 0 ∨ 3 < cs.length then none
  else if ¬ cs.all Char.isDigit then none
  else if 1 < cs.length ∧ cs.headD 'x' = '0' then none
  else
    match cs.foldl (fun acc c => acc * 10 + (c.toNat - 48)) 0 with
    | n => if n ≤ 255 then some n else none

/-- Modelled from the Python standard library: ipaddress.ip_address restricted
    to IPv4 dotted-quad inputs; any other input is a ValueError (none). The
    handlers under verification only use it as a validity test plus the
    canonical string form. -/
def ip_address (s : String) : Option IpV4 :=
  match splitOnDot s.toList with
  | [a, b, c, d] =>
    match parseOctet a, parseOctet b, parseOctet c, parseOctet d with
    | some a, some b, some c, some d => some { a := a, b := b, c := c, d := d }
    | _, _, _, _ => none
  | _ => none

/-- Canonical dotted-quad rendering, the str(server_ip) stored by the
    handlers. -/
def ipToString (ip : IpV4) : String :=
  toString ip.a ++ "." ++ toString ip.b ++ "." ++ toString ip.c ++ "." ++ toString ip.d

/-- Embedding of the enter_server_name handler: store the stripped text as
    server_name and move to enter_ip. -/
def enter_server_name (st : FSMState) (txt : String) : FSMState :=
  { tag := MState.enter_ip, data := { st.data with server_name := some txt.trim } }

/-- Embedding of the enter_server_ip handler. On a ValueError from
    ip_address the handler answers with a re-prompt and sets enter_ip again,
    leaving the proxy untouched. On a parsed address it reads server_name
    from the proxy (a missing key raises KeyError, which the except clause
    for ValueError does not catch: Except.error ()), stores the canonical
    address string as server_ip, and sets enter_url. -/
def enter_server_ip (st : FSMState) (txt : String) : Except Unit FSMState :=
  match ip_address txt with
  | none => Except.ok { st with tag := MState.enter_ip }
  | some ip =>
    match st.data.server_name with
    | none => Except.error ()
    | some _ =>
      Except.ok
        { tag := MState.enter_url
          data := { st.data with server_ip := some (ipToString ip) } }

/-- Embedding of the ChatMember ORM row of telegram_object.py (composite
    primary key: chat_id, user_id). Status strings are member, creator, and
    so on. -/
structure ChatMember where
  chat_id : Int
  user_id : Int
  status : String
deriving DecidableEq, Repr

/-- Embedding of chat_member_read: SELECT by the composite primary key. -/
def chat_member_read (members : List ChatMember) (chat_id user_id : Int) : Option ChatMember :=
  members.find? (fun m => m.chat_id == chat_id && m.user_id == user_id)

/-- Embedding of chat_member_create: INSERT one row. -/
def chat_member_create (members : List ChatMember) (chat_id user_id : Int)
    (status : String) : List ChatMember :=
  members ++ [{ chat_id := chat_id, user_id := user_id, status := status }]

/-- Embedding of chat_member_delete: DELETE by the composite primary key. -/
def chat_member_delete (members : List ChatMember) (chat_id user_id : Int) : List ChatMember :=
  members.filter (fun m => decide (¬(m.chat_id = chat_id ∧ m.user_id = user_id)))

/-- Embedding of chat_member_update: UPDATE the status of the row with the
    given composite primary key (no row, no change). -/
def chat_member_update (members : List ChatMember) (chat_id user_id : Int)
    (status : String) : List ChatMember :=
  members.map (fun m =>
    if m.chat_id = chat_id ∧ m.user_id = user_id then { m with status := status } else m)

/-- Embedding of one membership-reconciliation step of
    DBMiddleware.pre_process (the same code shape runs for the sender and for
    the bot account). remote = none models a get_member call that raised and
    left the remote member as Python None. The source branches: if the local
    row is absent and the remote member present, create; elif the local row is
    present and the remote member absent, delete; else update with
    remote.status. In the remaining else case with both absent, evaluating
    remote.status on None raises AttributeError, modelled as Except.error (),
    which aborts pre_process. -/
def track_chat_member (members : List ChatMember) (chat_id user_id : Int)
    (remote : Option String) : Except Unit (List ChatMember) :=
  match chat_member_read members chat_id user_id, remote with
  | none, some st => Except.ok (chat_member_create members chat_id user_id st)
  | some _, none => Except.ok (chat_member_delete members chat_id user_id)
  | some _, some st => Except.ok (chat_member_update members chat_id user_id st)
  | none, none => Except.error ()

/-! Concrete fixtures for the witness instances below. -/

/-- Sample server row (ip 1). -/
def sampleServer : OutlineServer := { ip := 1, url := "u", name := "n", is_active := true }

/-- Persisted key of server 1 whose id also exists remotely (fields differ:
    remote has a new name and usage). -/
def sampleRowKeep : ServerKey :=
  { server_ip := 1, key_id := 1, name := "a", password := "p", port := 1, method := "m",
    access_url := "x", used_bytes := 0 }

/-- Persisted key of server 1 absent remotely (will be deleted by a sync). -/
def sampleRowGone : ServerKey :=
  { server_ip := 1, key_id := 3, name := "c", password := "r", port := 3, method := "m",
    access_url := "z", used_bytes := 7 }

/-- Persisted key of an unrelated server (ip 2), untouched by syncs of
    server 1. -/
def sampleRowOther : ServerKey :=
  { server_ip := 2, key_id := 1, name := "o", password := "q", port := 9, method := "m",
    access_url := "w", used_bytes := 2 }

/-- Sample database with one registered server and three key rows. -/
def sampleDb : Db :=
  { servers := [sampleServer], keys := [sampleRowKeep, sampleRowGone, sampleRowOther] }

/-- Successful key-list response with two remote keys (ids 1 and 2). -/
def sampleKeysResp : Option (HttpResponse KeysDoc) :=
  some { status := 200, body := some { accessKeys := some [
    { id := 1, name := "a2", password := "p", port := 1, method := "m", accessUrl := "x" },
    { id := 2, name := "b", password := "q", port := 2, method := "m", accessUrl := "y" } ] } }

/-- Successful metrics response: key 1 has transferred 5 bytes. -/
def sampleMetricsResp : Option (HttpResponse MetricsDoc) :=
  some { status := 200, body := some { bytesTransferredByUserId := some [(1, 5)] } }

/-- Failed metrics response (status 500), used after a successful key-list
    fetch to exercise the atomicity path. -/
def failedMetricsResp : Option (HttpResponse MetricsDoc) :=
  some { status := 500, body := none }

/-- The OutlineKey list that get_keys produces from the sample responses. -/
def sampleRemoteKeys : List OutlineKey :=
  [ { key_id := 1, name := "a2", password := "p", port := 1, method := "m", access_url := "x",
      used_bytes := 5 },
    { key_id := 2, name := "b", password := "q", port := 2, method := "m", access_url := "y",
      used_bytes := 0 } ]

/-- Database with one registered server and no persisted keys. -/
def freshDb : Db := { servers := [sampleServer], keys := [] }

/-- Key-list response carrying the single remote key with id 5. -/
def singleKeyResp : Option (HttpResponse KeysDoc) :=
  some { status := 200, body := some { accessKeys := some [
    { id := 5, name := "e", password := "p", port := 1, method := "m", accessUrl := "v" } ] } }

/-- Metrics response with an empty per-key table. -/
def zeroMetricsResp : Option (HttpResponse MetricsDoc) :=
  some { status := 200, body := some { bytesTransferredByUserId := some [] } }

/-- Conversation state in enter_ip with the pending name MyServer stored. -/
def sampleFSMState : FSMState :=
  { tag := MState.enter_ip, data := { server_name := some "MyServer" } }

/-- Database with one registered server (ip 1) owning a single persisted key,
    plus one row of an unrelated server. -/
def wipeDb : Db := { servers := [sampleServer], keys := [sampleRowKeep, sampleRowOther] }

/-- Key-list response: status 200 with an empty accessKeys array. -/
def emptyKeysResp : Option (HttpResponse KeysDoc) :=
  some { status := 200, body := some { accessKeys := some [] } }

/-- Metrics response: status 200 whose parsed truthy body lacks the
    bytesTransferredByUserId field. -/
def fieldlessMetricsResp : Option (HttpResponse MetricsDoc) :=
  some { status := 200, body := some { bytesTransferredByUserId := none } }

/-! Helper lemmas about the reconciliation pipeline.  -/

theorem mem_serverRows {rows : List ServerKey} {s : Nat} {r : ServerKey} :
    r ∈ serverRows rows s ↔ r ∈ rows ∧ r.server_ip = s := by
  simp [serverRows]

theorem server_key_list_perm (db : Db) (s : Nat) :
    List.Perm (server_key_list db s) (serverRows db.keys s) :=
  List.perm_insertionSort _ _

theorem mem_server_key_list {db : Db} {s : Nat} {r : ServerKey} :
    r ∈ server_key_list db s ↔ r ∈ db.keys ∧ r.server_ip = s := by
  rw [(server_key_list_perm db s).mem_iff, mem_serverRows]

theorem toOutlineKey_key_id (r : ServerKey) : (toOutlineKey r).key_id = r.key_id := rfl

theorem rowOfKey_server_ip (s : Nat) (k : OutlineKey) : (rowOfKey s k).server_ip = s := rfl

theorem rowOfKey_key_id (s : Nat) (k : OutlineKey) : (rowOfKey s k).key_id = k.key_id := rfl

theorem toOutlineKey_rowOfKey (s : Nat) (k : OutlineKey) : toOutlineKey (rowOfKey s k) = k := rfl

theorem updRow_server_ip (r : ServerKey) (k : OutlineKey) :
    (updRow r k).server_ip = r.server_ip := rfl

theorem updRow_key_id (r : ServerKey) (k : OutlineKey) : (updRow r k).key_id = r.key_id := rfl

theorem toOutlineKey_updRow {r : ServerKey} {k : OutlineKey} (h : r.key_id = k.key_id) :
    toOutlineKey (updRow r k) = k := by
  cases k
  simp only [toOutlineKey, updRow]
  simp_all

theorem mem_db_keys_of {db : Db} {s : Nat} {k : OutlineKey} :
    k ∈ db_keys_of db s ↔ ∃ r, r ∈ db.keys ∧ r.server_ip = s ∧ toOutlineKey r = k := by
  simp only [db_keys_of, List.mem_map, mem_server_key_list]
  constructor
  · rintro ⟨r, ⟨h1, h2⟩, h3⟩
    exact ⟨r, h1, h2, h3⟩
  · rintro ⟨r, h1, h2, h3⟩
    exact ⟨r, ⟨h1, h2⟩, h3⟩

theorem mem_db_ids {db : Db} {s : Nat} {i : Nat} :
    i ∈ (db_keys_of db s).map OutlineKey.key_id ↔
      ∃ r, r ∈ db.keys ∧ r.server_ip = s ∧ r.key_id = i := by
  constructor
  · intro h
    rcases List.mem_map.mp h with ⟨k, hk, hik⟩
    rcases mem_db_keys_of.mp hk with ⟨r, h1, h2, h3⟩
    exact ⟨r, h1, h2, by rw [← h3] at hik; exact hik⟩
  · rintro ⟨r, h1, h2, h3⟩
    exact List.mem_map.mpr ⟨toOutlineKey r, mem_db_keys_of.mpr ⟨r, h1, h2, rfl⟩, h3⟩

theorem serverRows_ids_mem {db : Db} {s : Nat} {i : Nat} :
    i ∈ (serverRows db.keys s).map ServerKey.key_id ↔
      ∃ r, r ∈ db.keys ∧ r.server_ip = s ∧ r.key_id = i := by
  constructor
  · intro h
    rcases List.mem_map.mp h with ⟨r, hr, hi⟩
    rcases mem_serverRows.mp hr with ⟨h1, h2⟩
    exact ⟨r, h1, h2, hi⟩
  · rintro ⟨r, h1, h2, h3⟩
    exact List.mem_map.mpr ⟨r, mem_serverRows.mpr ⟨h1, h2⟩, h3⟩

theorem mem_sync_insert_values {db : Db} {s : Nat} {R : List OutlineKey} {k : OutlineKey} :
    k ∈ sync_insert_values db s R ↔
      k ∈ R ∧ k.key_id ∉ (db_keys_of db s).map OutlineKey.key_id := by
  simp [sync_insert_values, pySet, List.mem_filter]

theorem mem_sync_keys_to_delete {db : Db} {s : Nat} {R : List OutlineKey} {k : OutlineKey} :
    k ∈ sync_keys_to_delete db s R ↔
      k ∈ db_keys_of db s ∧ k.key_id ∉ R.map OutlineKey.key_id := by
  simp [sync_keys_to_delete, pySet, List.mem_filter]

theorem mem_sync_keys_to_update {db : Db} {s : Nat} {R : List OutlineKey} {k : OutlineKey} :
    k ∈ sync_keys_to_update db s R ↔
      k ∈ R ∧ k ∉ sync_keys_to_delete db s R ∧ k ∉ db_keys_of db s := by
  simp [sync_keys_to_update, pyDiff, List.mem_filter, and_assoc]

theorem applyDeletes_nil (s : Nat) (rows : List ServerKey) : applyDeletes s [] rows = rows := rfl

theorem applyDeletes_cons (s : Nat) (k : OutlineKey) (ks : List OutlineKey)
    (rows : List ServerKey) :
    applyDeletes s (k :: ks) rows =
      applyDeletes s ks
        (rows.filter (fun r => decide (¬(r.server_ip = s ∧ r.key_id = k.key_id)))) := rfl

theorem mem_applyDeletes {s : Nat} {ks : List OutlineKey} {rows : List ServerKey}
    {r : ServerKey} :
    r ∈ applyDeletes s ks rows ↔
      r ∈ rows ∧ ∀ k ∈ ks, ¬(r.server_ip = s ∧ r.key_id = k.key_id) := by
  induction ks generalizing rows with
  | nil => simp [applyDeletes_nil]
  | cons k ks ih =>
    rw [applyDeletes_cons, ih]
    simp only [List.mem_filter, decide_eq_true_eq, List.forall_mem_cons]
    tauto

theorem applyDeletes_sublist (s : Nat) (ks : List OutlineKey) (rows : List ServerKey) :
    List.Sublist (applyDeletes s ks rows) rows := by
  induction ks generalizing rows with
  | nil => simp [applyDeletes_nil]
  | cons k ks ih =>
    rw [applyDeletes_cons]
    exact (ih _).trans (List.filter_sublist _)

theorem applyUpdates_nil (s : Nat) (rows : List ServerKey) : applyUpdates s [] rows = rows := rfl

theorem applyUpdates_cons (s : Nat) (k : OutlineKey) (ks : List OutlineKey)
    (rows : List ServerKey) :
    applyUpdates s (k :: ks) rows = applyUpdates s ks (rows.map (applyUpd1 s k)) := rfl

theorem applyUpdAll_nil (s : Nat) (r : ServerKey) : applyUpdAll s [] r = r := rfl

theorem applyUpdAll_cons (s : Nat) (k : OutlineKey) (ks : List OutlineKey) (r : ServerKey) :
    applyUpdAll s (k :: ks) r = applyUpdAll s ks (applyUpd1 s k r) := rfl

theorem applyUpdates_eq_map (s : Nat) (ks : List OutlineKey) (rows : List ServerKey) :
    applyUpdates s ks rows = rows.map (applyUpdAll s ks) := by
  induction ks generalizing rows with
  | nil =>
    rw [applyUpdates_nil]
    exact (List.map_congr_left (fun r _ => (applyUpdAll_nil s r).symm)).symm ▸
      (List.map_id rows).symm ▸ rfl
  | cons k ks ih =>
    rw [applyUpdates_cons, ih, List.map_map]
    exact List.map_congr_left (fun r _ => rfl)

theorem applyUpd1_server_ip (s : Nat) (k : OutlineKey) (r : ServerKey) :
    (applyUpd1 s k r).server_ip = r.server_ip := by
  unfold applyUpd1
  split
  · rfl
  · rfl

theorem applyUpd1_key_id (s : Nat) (k : OutlineKey) (r : ServerKey) :
    (applyUpd1 s k r).key_id = r.key_id := by
  unfold applyUpd1
  split
  · rfl
  · rfl

theorem applyUpdAll_server_ip (s : Nat) (ks : List OutlineKey) (r : ServerKey) :
    (applyUpdAll s ks r).server_ip = r.server_ip := by
  induction ks generalizing r with
  | nil => rfl
  | cons k ks ih => rw [applyUpdAll_cons, ih, applyUpd1_server_ip]

theorem applyUpdAll_key_id (s : Nat) (ks : List OutlineKey) (r : ServerKey) :
    (applyUpdAll s ks r).key_id = r.key_id := by
  induction ks generalizing r with
  | nil => rfl
  | cons k ks ih => rw [applyUpdAll_cons, ih, applyUpd1_key_id]

theorem applyUpdAll_of_no_match {s : Nat} {ks : List OutlineKey} {r : ServerKey}
    (h : ∀ k ∈ ks, ¬(r.server_ip = s ∧ r.key_id = k.key_id)) :
    applyUpdAll s ks r = r := by
  induction ks with
  | nil => rfl
  | cons k ks ih =>
    rw [applyUpdAll_cons]
    have h1 : applyUpd1 s k r = r := by
      unfold applyUpd1
      exact if_neg (h k (List.mem_cons_self k ks))
    rw [h1]
    exact ih (fun k2 hk2 => h k2 (List.mem_cons_of_mem k hk2))

theorem applyUpdAll_of_match {s : Nat} {ks : List OutlineKey} {k : OutlineKey} {r : ServerKey}
    (hnd : (ks.map OutlineKey.key_id).Nodup) (hk : k ∈ ks)
    (hsip : r.server_ip = s) (hid : r.key_id = k.key_id) :
    applyUpdAll s ks r = updRow r k := by
  induction ks with
  | nil => cases hk
  | cons k0 ks ih =>
    rw [List.map_cons, List.nodup_cons] at hnd
    rcases List.mem_cons.mp hk with hk0 | htail
    · subst hk0
      rw [applyUpdAll_cons]
      have h1 : applyUpd1 s k r = updRow r k := by
        unfold applyUpd1
        exact if_pos ⟨hsip, hid⟩
      rw [h1]
      refine applyUpdAll_of_no_match (fun k2 hk2 hmatch => ?_)
      rw [updRow_key_id] at hmatch
      have hkk : k.key_id = k2.key_id := by omega
      exact hnd.1 (hkk ▸ List.mem_map.mpr ⟨k2, hk2, rfl⟩)
    · rw [applyUpdAll_cons]
      have h1 : applyUpd1 s k0 r = r := by
        unfold applyUpd1
        refine if_neg (fun hmatch => ?_)
        have hkk : k0.key_id = k.key_id := by omega
        exact hnd.1 (hkk.symm ▸ List.mem_map.mpr ⟨k, htail, rfl⟩)
      rw [h1]
      exact ih hnd.2 htail

theorem eq_of_mem_of_ids_nodup {l : List OutlineKey}
    (h : (l.map OutlineKey.key_id).Nodup) {a b : OutlineKey}
    (ha : a ∈ l) (hb : b ∈ l) (hab : a.key_id = b.key_id) : a = b :=
  List.inj_on_of_nodup_map h ha hb hab

theorem eq_row_of_mem_of_ids_nodup {db : Db} {s : Nat}
    (h : ((serverRows db.keys s).map ServerKey.key_id).Nodup) {a b : ServerKey}
    (ha : a ∈ db.keys) (hsa : a.server_ip = s) (hb : b ∈ db.keys) (hsb : b.server_ip = s)
    (hab : a.key_id = b.key_id) : a = b :=
  List.inj_on_of_nodup_map h (mem_serverRows.mpr ⟨ha, hsa⟩) (mem_serverRows.mpr ⟨hb, hsb⟩) hab

theorem sync_insert_values_sublist (db : Db) (s : Nat) (R : List OutlineKey) :
    List.Sublist (sync_insert_values db s R) R :=
  (List.dedup_sublist _).trans (List.filter_sublist _)

theorem sync_keys_to_update_sublist (db : Db) (s : Nat) (R : List OutlineKey) :
    List.Sublist (sync_keys_to_update db s R) R :=
  (List.filter_sublist _).trans ((List.dedup_sublist _).trans
    ((List.filter_sublist _).trans (List.dedup_sublist _)))

theorem sync_insert_ids_nodup {db : Db} {s : Nat} {R : List OutlineKey}
    (hR : (R.map OutlineKey.key_id).Nodup) :
    ((sync_insert_values db s R).map OutlineKey.key_id).Nodup :=
  hR.sublist ((sync_insert_values_sublist db s R).map _)

theorem sync_update_ids_nodup {db : Db} {s : Nat} {R : List OutlineKey}
    (hR : (R.map OutlineKey.key_id).Nodup) :
    ((sync_keys_to_update db s R).map OutlineKey.key_id).Nodup :=
  hR.sublist ((sync_keys_to_update_sublist db s R).map _)

/-- The conditional INSERT of server_key_sync always amounts to appending the
    insert rows (appending none when the batch is empty). -/
theorem sync_rows_eq (db : Db) (s : Nat) (R : List OutlineKey) :
    sync_rows db s R =
      applyUpdates s (sync_keys_to_update db s R)
        (applyDeletes s (sync_keys_to_delete db s R)
          (db.keys ++ (sync_insert_values db s R).map (rowOfKey s))) := by
  unfold sync_rows
  by_cases h : (sync_insert_values db s R).isEmpty
  · rw [if_pos h, List.isEmpty_iff.mp h]
    simp
  · rw [if_neg h]

theorem sync_rows_as_map (db : Db) (s : Nat) (R : List OutlineKey) :
    sync_rows db s R =
      (applyDeletes s (sync_keys_to_delete db s R)
        (db.keys ++ (sync_insert_values db s R).map (rowOfKey s))).map
        (applyUpdAll s (sync_keys_to_update db s R)) := by
  rw [sync_rows_eq, applyUpdates_eq_map]

theorem serverRows_map_of_sip {f : ServerKey → ServerKey}
    (hf : ∀ r, (f r).server_ip = r.server_ip) (rows : List ServerKey) (s : Nat) :
    serverRows (rows.map f) s = (serverRows rows s).map f := by
  induction rows with
  | nil => rfl
  | cons r rows ih =>
    unfold serverRows at ih ⊢
    rw [List.map_cons, List.filter_cons, List.filter_cons, hf r]
    by_cases hc : r.server_ip = s
    · simp [hc, ih]
    · simp [hc, ih]

/-- Every remote key ends up persisted with exactly its remote field values. -/
theorem sync_mem_of_remote {db : Db} {s : Nat} {R : List OutlineKey}
    (hR : (R.map OutlineKey.key_id).Nodup)
    (hD : ((serverRows db.keys s).map ServerKey.key_id).Nodup)
    {k : OutlineKey} (hkR : k ∈ R) :
    ∃ r, r ∈ sync_rows db s R ∧ r.server_ip = s ∧ toOutlineKey r = k := by
  rw [sync_rows_as_map]
  by_cases hid : k.key_id ∈ (db_keys_of db s).map OutlineKey.key_id
  · -- the key id is already persisted: the existing row is kept and possibly updated
    rcases mem_db_ids.mp hid with ⟨r0, hr0mem, hr0sip, hr0id⟩
    have hkid : k.key_id ∈ R.map OutlineKey.key_id := List.mem_map.mpr ⟨k, hkR, rfl⟩
    have hsurv : r0 ∈ applyDeletes s (sync_keys_to_delete db s R)
        (db.keys ++ (sync_insert_values db s R).map (rowOfKey s)) := by
      refine mem_applyDeletes.mpr ⟨List.mem_append_left _ hr0mem, fun k2 hk2 hmatch => ?_⟩
      have h2 := (mem_sync_keys_to_delete.mp hk2).2
      exact h2 (by rw [← hmatch.2, hr0id]; exact hkid)
    by_cases hsame : toOutlineKey r0 = k
    · -- byte-identical: no update touches the row
      refine ⟨r0, ?_, hr0sip, hsame⟩
      have hnm : applyUpdAll s (sync_keys_to_update db s R) r0 = r0 := by
        refine applyUpdAll_of_no_match (fun u hu hmatch => ?_)
        have hu3 := (mem_sync_keys_to_update.mp hu).2.2
        have huR := (mem_sync_keys_to_update.mp hu).1
        have huk : u = k := eq_of_mem_of_ids_nodup hR huR hkR (by rw [← hmatch.2, hr0id])
        exact hu3 (by rw [huk, ← hsame]; exact mem_db_keys_of.mpr ⟨r0, hr0mem, hr0sip, rfl⟩)
      exact List.mem_map.mpr ⟨r0, hsurv, hnm⟩
    · -- same id, different fields: the update overwrites the row with k
      have hkU : k ∈ sync_keys_to_update db s R := by
        refine mem_sync_keys_to_update.mpr ⟨hkR, fun hkDel => ?_, fun hkdb => ?_⟩
        · exact (mem_sync_keys_to_delete.mp hkDel).2 hkid
        · rcases mem_db_keys_of.mp hkdb with ⟨r1, hr1mem, hr1sip, hr1eq⟩
          have : r1 = r0 := eq_row_of_mem_of_ids_nodup hD hr1mem hr1sip hr0mem hr0sip
            (by rw [← hr1eq] at hr0id; exact hr0id.symm ▸ rfl)
          exact hsame (by rw [← this]; exact hr1eq)
      have hupd : applyUpdAll s (sync_keys_to_update db s R) r0 = updRow r0 k :=
        applyUpdAll_of_match (sync_update_ids_nodup hR) hkU hr0sip hr0id
      exact ⟨updRow r0 k, List.mem_map.mpr ⟨r0, hsurv, hupd⟩,
        by rw [updRow_server_ip]; exact hr0sip, toOutlineKey_updRow hr0id⟩
  · -- fresh key id: inserted, then redundantly updated with its own fields
    have hkI : k ∈ sync_insert_values db s R := mem_sync_insert_values.mpr ⟨hkR, hid⟩
    have hrk1 : rowOfKey s k ∈
        db.keys ++ (sync_insert_values db s R).map (rowOfKey s) :=
      List.mem_append_right _ (List.mem_map.mpr ⟨k, hkI, rfl⟩)
    have hsurv : rowOfKey s k ∈ applyDeletes s (sync_keys_to_delete db s R)
        (db.keys ++ (sync_insert_values db s R).map (rowOfKey s)) := by
      refine mem_applyDeletes.mpr ⟨hrk1, fun k2 hk2 hmatch => ?_⟩
      have h1 := (mem_sync_keys_to_delete.mp hk2).1
      have : k2.key_id ∈ (db_keys_of db s).map OutlineKey.key_id :=
        List.mem_map.mpr ⟨k2, h1, rfl⟩
      rw [rowOfKey_key_id] at hmatch
      exact hid (hmatch.2 ▸ this)
    have hkU : k ∈ sync_keys_to_update db s R := by
      refine mem_sync_keys_to_update.mpr ⟨hkR, fun hkDel => ?_, fun hkdb => ?_⟩
      · exact hid (List.mem_map.mpr ⟨k, (mem_sync_keys_to_delete.mp hkDel).1, rfl⟩)
      · exact hid (List.mem_map.mpr ⟨k, hkdb, rfl⟩)
    have hupd : applyUpdAll s (sync_keys_to_update db s R) (rowOfKey s k) =
        updRow (rowOfKey s k) k :=
      applyUpdAll_of_match (sync_update_ids_nodup hR) hkU (rowOfKey_server_ip s k)
        (rowOfKey_key_id s k)
    exact ⟨updRow (rowOfKey s k) k, List.mem_map.mpr ⟨rowOfKey s k, hsurv, hupd⟩,
      by rw [updRow_server_ip, rowOfKey_server_ip], toOutlineKey_updRow (rowOfKey_key_id s k)⟩

/-- Every persisted row of the server after the sync carries the field values
    of some remote key. -/
theorem sync_remote_of_mem {db : Db} {s : Nat} {R : List OutlineKey}
    (hR : (R.map OutlineKey.key_id).Nodup)
    (hD : ((serverRows db.keys s).map ServerKey.key_id).Nodup)
    {r : ServerKey} (hr : r ∈ sync_rows db s R) (hsip : r.server_ip = s) :
    toOutlineKey r ∈ R := by
  rw [sync_rows_as_map] at hr
  rcases List.mem_map.mp hr with ⟨r2, hr2, hfr⟩
  rcases mem_applyDeletes.mp hr2 with ⟨hr2mem, hr2nodel⟩
  have hr2sip : r2.server_ip = s := by
    rw [← applyUpdAll_server_ip s (sync_keys_to_update db s R) r2, hfr]
    exact hsip
  rcases List.mem_append.mp hr2mem with hdbrow | hinsrow
  · -- the row was already persisted before the sync
    have hr2dbk : toOutlineKey r2 ∈ db_keys_of db s :=
      mem_db_keys_of.mpr ⟨r2, hdbrow, hr2sip, rfl⟩
    have hidR : r2.key_id ∈ R.map OutlineKey.key_id := by
      by_contra hno
      exact hr2nodel (toOutlineKey r2) (mem_sync_keys_to_delete.mpr ⟨hr2dbk, hno⟩)
        ⟨hr2sip, rfl⟩
    rcases List.mem_map.mp hidR with ⟨k, hkR, hkid⟩
    by_cases hkU : k ∈ sync_keys_to_update db s R
    · have hupd : applyUpdAll s (sync_keys_to_update db s R) r2 = updRow r2 k :=
        applyUpdAll_of_match (sync_update_ids_nodup hR) hkU hr2sip hkid.symm
      rw [← hfr, hupd, toOutlineKey_updRow hkid.symm]
      exact hkR
    · have hkdb : k ∈ db_keys_of db s := by
        by_contra hkdb
        exact hkU (mem_sync_keys_to_update.mpr ⟨hkR,
          fun hkDel => (mem_sync_keys_to_delete.mp hkDel).2
            (List.mem_map.mpr ⟨k, hkR, rfl⟩), hkdb⟩)
      rcases mem_db_keys_of.mp hkdb with ⟨r1, hr1mem, hr1sip, hr1eq⟩
      have hr12 : r1 = r2 := eq_row_of_mem_of_ids_nodup hD hr1mem hr1sip hdbrow hr2sip
        (by rw [← hr1eq] at hkid; exact hkid)
      have hnm : applyUpdAll s (sync_keys_to_update db s R) r2 = r2 := by
        refine applyUpdAll_of_no_match (fun u hu hmatch => ?_)
        have huR := (mem_sync_keys_to_update.mp hu).1
        have huk : u = k := eq_of_mem_of_ids_nodup hR huR hkR (by rw [hmatch.2] at hkid; exact hkid ▸ rfl)
        exact hkU (huk ▸ hu)
      rw [← hfr, hnm, ← hr12, hr1eq]
      exact hkR
  · -- the row was inserted by this sync from a remote key
    rcases List.mem_map.mp hinsrow with ⟨k, hkI, hrk⟩
    have hkR : k ∈ R := (mem_sync_insert_values.mp hkI).1
    have hr2id : r2.key_id = k.key_id := by rw [← hrk, rowOfKey_key_id]
    by_cases hkU : k ∈ sync_keys_to_update db s R
    · have hupd : applyUpdAll s (sync_keys_to_update db s R) r2 = updRow r2 k :=
        applyUpdAll_of_match (sync_update_ids_nodup hR) hkU hr2sip hr2id
      rw [← hfr, hupd, toOutlineKey_updRow hr2id]
      exact hkR
    · have hnm : applyUpdAll s (sync_keys_to_update db s R) r2 = r2 := by
        refine applyUpdAll_of_no_match (fun u hu hmatch => ?_)
        have huR := (mem_sync_keys_to_update.mp hu).1
        have huk : u = k := eq_of_mem_of_ids_nodup hR huR hkR (by rw [← hmatch.2, hr2id])
        exact hkU (huk ▸ hu)
      rw [← hfr, hnm, ← hrk, toOutlineKey_rowOfKey]
      exact hkR

/-- Rows of other servers are never touched by the sync (kept verbatim). -/
theorem sync_other_kept {db : Db} {s : Nat} {R : List OutlineKey}
    {r : ServerKey} (hr : r ∈ db.keys) (hne : r.server_ip ≠ s) :
    r ∈ sync_rows db s R := by
  rw [sync_rows_as_map]
  have hsurv : r ∈ applyDeletes s (sync_keys_to_delete db s R)
      (db.keys ++ (sync_insert_values db s R).map (rowOfKey s)) :=
    mem_applyDeletes.mpr ⟨List.mem_append_left _ hr,
      fun k _ hmatch => hne hmatch.1⟩
  exact List.mem_map.mpr ⟨r, hsurv,
    applyUpdAll_of_no_match (fun k _ hmatch => hne hmatch.1)⟩

/-- Conversely, every row of another server present after the sync was
    already present before. -/
theorem sync_other_from {db : Db} {s : Nat} {R : List OutlineKey}
    {r : ServerKey} (hr : r ∈ sync_rows db s R) (hne : r.server_ip ≠ s) :
    r ∈ db.keys := by
  rw [sync_rows_as_map] at hr
  rcases List.mem_map.mp hr with ⟨r2, hr2, hfr⟩
  have hr2sip : r2.server_ip ≠ s := by
    rw [← applyUpdAll_server_ip s (sync_keys_to_update db s R) r2, hfr]
    exact hne
  have hnm : applyUpdAll s (sync_keys_to_update db s R) r2 = r2 :=
    applyUpdAll_of_no_match (fun k _ hmatch => hr2sip hmatch.1)
  rcases List.mem_append.mp (mem_applyDeletes.mp hr2).1 with hdbrow | hinsrow
  · rw [← hfr, hnm]
    exact hdbrow
  · rcases List.mem_map.mp hinsrow with ⟨k, _, hrk⟩
    exact absurd (by rw [← hrk, rowOfKey_server_ip]) hr2sip

/-- The persisted key ids of the server remain duplicate-free after the
    sync. -/
theorem sync_rows_ids_nodup {db : Db} {s : Nat} {R : List OutlineKey}
    (hR : (R.map OutlineKey.key_id).Nodup)
    (hD : ((serverRows db.keys s).map ServerKey.key_id).Nodup) :
    ((serverRows (sync_rows db s R) s).map ServerKey.key_id).Nodup := by
  rw [sync_rows_as_map]
  have h1 : serverRows (db.keys ++ (sync_insert_values db s R).map (rowOfKey s)) s =
      serverRows db.keys s ++ (sync_insert_values db s R).map (rowOfKey s) := by
    unfold serverRows
    rw [List.filter_append]
    congr 1
    refine List.filter_eq_self.mpr (fun r hrmem => ?_)
    rcases List.mem_map.mp hrmem with ⟨k, _, hrk⟩
    rw [← hrk]
    simp [rowOfKey_server_ip]
  have hids1 : ((serverRows (db.keys ++ (sync_insert_values db s R).map (rowOfKey s)) s).map
      ServerKey.key_id).Nodup := by
    rw [h1, List.map_append]
    have hmm : ((sync_insert_values db s R).map (rowOfKey s)).map ServerKey.key_id =
        (sync_insert_values db s R).map OutlineKey.key_id := by
      rw [List.map_map]
      exact List.map_congr_left (fun k _ => rowOfKey_key_id s k)
    rw [hmm]
    refine hD.append (sync_insert_ids_nodup hR) (fun i hil hir => ?_)
    rcases List.mem_map.mp hir with ⟨k, hkI, hki⟩
    have := (mem_sync_insert_values.mp hkI).2
    rcases serverRows_ids_mem.mp hil with ⟨r, hrmem, hrsip, hrid⟩
    exact this (hki ▸ mem_db_ids.mpr ⟨r, hrmem, hrsip, hrid⟩)
  have hids2 : ((serverRows (applyDeletes s (sync_keys_to_delete db s R)
      (db.keys ++ (sync_insert_values db s R).map (rowOfKey s))) s).map
      ServerKey.key_id).Nodup :=
    hids1.sublist (((applyDeletes_sublist s _ _).filter _).map _)
  rw [serverRows_map_of_sip (fun r => applyUpdAll_server_ip s _ r) _ s, List.map_map]
  have hcomp : (serverRows (applyDeletes s (sync_keys_to_delete db s R)
        (db.keys ++ (sync_insert_values db s R).map (rowOfKey s))) s).map
        (ServerKey.key_id ∘ applyUpdAll s (sync_keys_to_update db s R)) =
      (serverRows (applyDeletes s (sync_keys_to_delete db s R)
        (db.keys ++ (sync_insert_values db s R).map (rowOfKey s))) s).map
        ServerKey.key_id :=
    List.map_congr_left (fun r _ => applyUpdAll_key_id s _ r)
  rw [hcomp]
  exact hids2

/-- When every remote key is already persisted verbatim, the insert batch is
    empty. -/
theorem sync_insert_values_nil_of_converged {db : Db} {s : Nat} {R : List OutlineKey}
    (hconv : ∀ k ∈ R, ∃ r, r ∈ db.keys ∧ r.server_ip = s ∧ toOutlineKey r = k) :
    sync_insert_values db s R = [] := by
  unfold sync_insert_values pySet
  have h : R.filter
      (fun k => decide (k.key_id ∉ (db_keys_of db s).map OutlineKey.key_id)) = [] := by
    refine List.filter_eq_nil_iff.mpr (fun k hk => ?_)
    simp only [decide_eq_true_eq, not_not]
    rcases hconv k hk with ⟨r, h1, h2, h3⟩
    refine mem_db_ids.mpr ⟨r, h1, h2, ?_⟩
    rw [← h3, toOutlineKey_key_id]
  rw [h]
  rfl

/-- When every persisted key of the server also exists remotely, the delete
    batch is empty. -/
theorem sync_keys_to_delete_nil_of_converged {db : Db} {s : Nat} {R : List OutlineKey}
    (hconv : ∀ r ∈ db.keys, r.server_ip = s → toOutlineKey r ∈ R) :
    sync_keys_to_delete db s R = [] := by
  unfold sync_keys_to_delete pySet
  have h : (db_keys_of db s).filter
      (fun k => decide (k.key_id ∉ R.map OutlineKey.key_id)) = [] := by
    refine List.filter_eq_nil_iff.mpr (fun k hk => ?_)
    simp only [decide_eq_true_eq, not_not]
    rcases mem_db_keys_of.mp hk with ⟨r, h1, h2, h3⟩
    exact List.mem_map.mpr ⟨k, h3 ▸ hconv r h1 h2, rfl⟩
  rw [h]
  rfl

/-- When every remote key is already persisted verbatim, the update batch is
    empty. -/
theorem sync_keys_to_update_nil_of_converged {db : Db} {s : Nat} {R : List OutlineKey}
    (hconv : ∀ k ∈ R, ∃ r, r ∈ db.keys ∧ r.server_ip = s ∧ toOutlineKey r = k) :
    sync_keys_to_update db s R = [] := by
  unfold sync_keys_to_update pyDiff
  refine List.filter_eq_nil_iff.mpr (fun k hk => ?_)
  have hkR : k ∈ R := by
    rw [List.mem_dedup, List.mem_filter] at hk
    exact List.mem_dedup.mp hk.1
  simp only [decide_eq_true_eq, not_not]
  rcases hconv k hkR with ⟨r, h1, h2, h3⟩
  exact mem_db_keys_of.mpr ⟨r, h1, h2, h3⟩

/-- With all three batches empty the table is untouched. -/
theorem sync_rows_noop {db : Db} {s : Nat} {R : List OutlineKey}
    (h1 : sync_insert_values db s R = [])
    (h2 : sync_keys_to_delete db s R = [])
    (h3 : sync_keys_to_update db s R = []) :
    sync_rows db s R = db.keys := by
  rw [sync_rows_eq, h1, h2, h3, List.map_nil, List.append_nil,
    applyDeletes_nil, applyUpdates_nil]

/-- Unfolding of server_key_sync when the server is absent. -/
theorem server_key_sync_absent {db : Db} {s : Nat}
    {kr : Option (HttpResponse KeysDoc)} {mr : Option (HttpResponse MetricsDoc)}
    (hs : server_read db s = none) :
    server_key_sync db s kr mr =
      { result := SyncResult.failure, db := db,
        insert_values := [], keys_to_delete := [], keys_to_update := [] } := by
  unfold server_key_sync
  rw [hs]

/-- Unfolding of server_key_sync when get_keys raises. -/
theorem server_key_sync_error {db : Db} {s : Nat} {srv : OutlineServer}
    {kr : Option (HttpResponse KeysDoc)} {mr : Option (HttpResponse MetricsDoc)}
    (hs : server_read db s = some srv) (he : get_keys kr mr = Except.error ()) :
    server_key_sync db s kr mr =
      { result := SyncResult.keys (server_key_list db s), db := db,
        insert_values := [], keys_to_delete := [], keys_to_update := [] } := by
  unfold server_key_sync
  rw [hs, he]

/-- Unfolding of server_key_sync when get_keys succeeds. -/
theorem server_key_sync_ok {db : Db} {s : Nat} {srv : OutlineServer}
    {kr : Option (HttpResponse KeysDoc)} {mr : Option (HttpResponse MetricsDoc)}
    {R : List OutlineKey}
    (hs : server_read db s = some srv) (hok : get_keys kr mr = Except.ok R) :
    server_key_sync db s kr mr =
      { result := SyncResult.keys (server_key_list
          { servers := db.servers, keys := sync_rows db s R } s),
        db := { servers := db.servers, keys := sync_rows db s R },
        insert_values := sync_insert_values db s R,
        keys_to_delete := sync_keys_to_delete db s R,
        keys_to_update := sync_keys_to_update db s R } := by
  unfold server_key_sync
  rw [hs, hok]

/-! Claim theorems. -/

/-- C1: for a server present in storage, after a server_key_sync call whose
    remote key-list and metrics fetches succeed, the persisted key set of the
    server equals the remote key set exactly (same ids, and per id the same
    name, password, port, method, access_url, used_bytes), with no duplicate
    ids, while the server rows themselves (name, url, active flag) are
    unchanged. The two Nodup hypotheses state that remote ids and persisted
    ids are duplicate-free, the primary-key well-formedness of both sides. -/
theorem server_key_sync_converges (db : Db) (s : Nat) (srv : OutlineServer)
    (kr : Option (HttpResponse KeysDoc)) (mr : Option (HttpResponse MetricsDoc))
    (R : List OutlineKey)
    (hs : server_read db s = some srv) (hok : get_keys kr mr = Except.ok R)
    (hR : (R.map OutlineKey.key_id).Nodup)
    (hD : ((serverRows db.keys s).map ServerKey.key_id).Nodup) :
    (server_key_sync db s kr mr).db.servers = db.servers ∧
    (∀ k ∈ R, ∃ r, r ∈ (server_key_sync db s kr mr).db.keys ∧ r.server_ip = s ∧
      toOutlineKey r = k) ∧
    (∀ r ∈ (server_key_sync db s kr mr).db.keys, r.server_ip = s → toOutlineKey r ∈ R) ∧
    ((serverRows (server_key_sync db s kr mr).db.keys s).map ServerKey.key_id).Nodup := by
  rw [server_key_sync_ok hs hok]
  exact ⟨rfl, fun k hk => sync_mem_of_remote hR hD hk,
    fun r hr hsip => sync_remote_of_mem hR hD hr hsip,
    sync_rows_ids_nodup hR hD⟩

/-- C1 witness: the convergence theorem applied to the sample database (one
    server, two of its keys persisted, one unrelated row) and the sample
    remote responses. -/
theorem server_key_sync_converges_witness :
    (server_key_sync sampleDb 1 sampleKeysResp sampleMetricsResp).db.servers =
      sampleDb.servers ∧
    (∀ k ∈ sampleRemoteKeys, ∃ r,
      r ∈ (server_key_sync sampleDb 1 sampleKeysResp sampleMetricsResp).db.keys ∧
      r.server_ip = 1 ∧ toOutlineKey r = k) ∧
    (∀ r ∈ (server_key_sync sampleDb 1 sampleKeysResp sampleMetricsResp).db.keys,
      r.server_ip = 1 → toOutlineKey r ∈ sampleRemoteKeys) ∧
    ((serverRows (server_key_sync sampleDb 1 sampleKeysResp sampleMetricsResp).db.keys 1).map
      ServerKey.key_id).Nodup :=
  server_key_sync_converges sampleDb 1 sampleServer sampleKeysResp sampleMetricsResp
    sampleRemoteKeys rfl rfl (by decide) (by decide)

/-- C2 amended: for a server present in storage, when get_keys raises
    (network error, non-200 status on either fetch, unparsable body,
    key-list JSON without accessKeys, or a metrics body lacking
    bytesTransferredByUserId while the remote key list is nonempty —
    including a metrics failure after a successful key-list fetch),
    server_key_sync issues no write, leaves the database identical, and
    returns the previous persisted key list instead of propagating the
    exception. The counterexample below shows the one malformed-response
    case that does not raise and therefore does write. -/
theorem server_key_sync_fetch_failure_no_writes (db : Db) (s : Nat) (srv : OutlineServer)
    (kr : Option (HttpResponse KeysDoc)) (mr : Option (HttpResponse MetricsDoc))
    (hs : server_read db s = some srv) (he : get_keys kr mr = Except.error ()) :
    (server_key_sync db s kr mr).db = db ∧
    (server_key_sync db s kr mr).result = SyncResult.keys (server_key_list db s) ∧
    (server_key_sync db s kr mr).insert_values = [] ∧
    (server_key_sync db s kr mr).keys_to_delete = [] ∧
    (server_key_sync db s kr mr).keys_to_update = [] := by
  rw [server_key_sync_error hs he]
  exact ⟨rfl, rfl, rfl, rfl, rfl⟩

/-- C2 witness: the failure theorem applied to a successful key-list fetch
    followed by a status-500 metrics fetch on the sample database. -/
theorem server_key_sync_fetch_failure_no_writes_witness :
    (server_key_sync sampleDb 1 sampleKeysResp failedMetricsResp).db = sampleDb ∧
    (server_key_sync sampleDb 1 sampleKeysResp failedMetricsResp).result =
      SyncResult.keys (server_key_list sampleDb 1) ∧
    (server_key_sync sampleDb 1 sampleKeysResp failedMetricsResp).insert_values = [] ∧
    (server_key_sync sampleDb 1 sampleKeysResp failedMetricsResp).keys_to_delete = [] ∧
    (server_key_sync sampleDb 1 sampleKeysResp failedMetricsResp).keys_to_update = [] :=
  server_key_sync_fetch_failure_no_writes sampleDb 1 sampleServer sampleKeysResp
    failedMetricsResp rfl rfl

/-- C2 counterexample: a 200 metrics response whose parseable truthy body
    lacks bytesTransferredByUserId is a malformed response, yet when the
    remote accessKeys list is empty the per-key loop of get_keys never
    evaluates the raising expression and get_keys returns the empty list as a
    success; server_key_sync then treats the empty list as authoritative,
    issues a delete for the persisted key of the server, and changes the
    database — refuting the no-writes and byte-identical parts of the claim
    at this concrete input. -/
theorem server_key_sync_malformed_metrics_counterexample :
    fieldlessMetricsResp =
      some { status := 200, body := some { bytesTransferredByUserId := none } } ∧
    get_keys emptyKeysResp fieldlessMetricsResp = Except.ok [] ∧
    (server_key_sync wipeDb 1 emptyKeysResp fieldlessMetricsResp).keys_to_delete =
      [toOutlineKey sampleRowKeep] ∧
    (server_key_sync wipeDb 1 emptyKeysResp fieldlessMetricsResp).db.keys =
      [sampleRowOther] ∧
    (server_key_sync wipeDb 1 emptyKeysResp fieldlessMetricsResp).db ≠ wipeDb := by
  refine ⟨rfl, rfl, rfl, rfl, ?_⟩
  decide

/-- C3 counterexample: with a server having no persisted keys and one remote
    key of id 5, the to-insert and to-update batches both contain id 5, so
    the three batches are not pairwise disjoint by key id as the claim
    states. -/
theorem sync_sets_not_disjoint_counterexample :
    (server_key_sync freshDb 1 singleKeyResp zeroMetricsResp).insert_values.map
      OutlineKey.key_id = [5] ∧
    (server_key_sync freshDb 1 singleKeyResp zeroMetricsResp).keys_to_update.map
      OutlineKey.key_id = [5] ∧
    ¬ (∀ k ∈ (server_key_sync freshDb 1 singleKeyResp zeroMetricsResp).insert_values,
        ∀ k2 ∈ (server_key_sync freshDb 1 singleKeyResp zeroMetricsResp).keys_to_update,
        k.key_id ≠ k2.key_id) := by
  decide

/-- C3 amended: to-insert and to-delete are disjoint by key id, and so are
    to-update and to-delete; but every to-insert key also lies in to-update
    (the freshly inserted row receives one redundant update), so insert and
    update are not disjoint; a key id present on both sides with
    byte-identical field values is in none of the three batches, so no write
    is issued for it. -/
theorem sync_sets_structure (db : Db) (s : Nat) (srv : OutlineServer)
    (kr : Option (HttpResponse KeysDoc)) (mr : Option (HttpResponse MetricsDoc))
    (R : List OutlineKey)
    (hs : server_read db s = some srv) (hok : get_keys kr mr = Except.ok R)
    (hR : (R.map OutlineKey.key_id).Nodup) :
    (∀ k ∈ (server_key_sync db s kr mr).insert_values,
      ∀ k2 ∈ (server_key_sync db s kr mr).keys_to_delete, k.key_id ≠ k2.key_id) ∧
    (∀ k ∈ (server_key_sync db s kr mr).keys_to_update,
      ∀ k2 ∈ (server_key_sync db s kr mr).keys_to_delete, k.key_id ≠ k2.key_id) ∧
    (∀ k ∈ (server_key_sync db s kr mr).insert_values,
      k ∈ (server_key_sync db s kr mr).keys_to_update) ∧
    (∀ r ∈ db.keys, r.server_ip = s → toOutlineKey r ∈ R →
      toOutlineKey r ∉ (server_key_sync db s kr mr).insert_values ∧
      (∀ k2 ∈ (server_key_sync db s kr mr).keys_to_delete, r.key_id ≠ k2.key_id) ∧
      (∀ k2 ∈ (server_key_sync db s kr mr).keys_to_update, r.key_id ≠ k2.key_id)) := by
  rw [server_key_sync_ok hs hok]
  refine ⟨?_, ?_, ?_, ?_⟩
  · intro k hk k2 hk2 heq
    have h1 := (mem_sync_insert_values.mp hk).2
    have h2 := (mem_sync_keys_to_delete.mp hk2).1
    exact h1 (heq ▸ List.mem_map.mpr ⟨k2, h2, rfl⟩)
  · intro k hk k2 hk2 heq
    have h1 := (mem_sync_keys_to_update.mp hk).1
    have h2 := (mem_sync_keys_to_delete.mp hk2).2
    exact h2 (heq ▸ List.mem_map.mpr ⟨k, h1, rfl⟩)
  · intro k hk
    rcases mem_sync_insert_values.mp hk with ⟨hkR, hid⟩
    refine mem_sync_keys_to_update.mpr ⟨hkR, fun hkDel => ?_, fun hkdb => ?_⟩
    · exact hid (List.mem_map.mpr ⟨k, (mem_sync_keys_to_delete.mp hkDel).1, rfl⟩)
    · exact hid (List.mem_map.mpr ⟨k, hkdb, rfl⟩)
  · intro r hrmem hsip hkR
    have hkdb : toOutlineKey r ∈ db_keys_of db s := mem_db_keys_of.mpr ⟨r, hrmem, hsip, rfl⟩
    refine ⟨fun hkI => ?_, fun k2 hk2 heq => ?_, fun k2 hk2 heq => ?_⟩
    · exact (mem_sync_insert_values.mp hkI).2 (List.mem_map.mpr ⟨toOutlineKey r, hkdb, rfl⟩)
    · exact (mem_sync_keys_to_delete.mp hk2).2
        (heq ▸ List.mem_map.mpr ⟨toOutlineKey r, hkR, rfl⟩)
    · rcases mem_sync_keys_to_update.mp hk2 with ⟨hk2R, _, hk2db⟩
      have : k2 = toOutlineKey r := eq_of_mem_of_ids_nodup hR hk2R hkR heq.symm
      exact hk2db (this ▸ hkdb)

/-- C3 amended witness: the batch-structure theorem applied to the sample
    database and sample remote responses. -/
theorem sync_sets_structure_witness :
    (∀ k ∈ (server_key_sync sampleDb 1 sampleKeysResp sampleMetricsResp).insert_values,
      ∀ k2 ∈ (server_key_sync sampleDb 1 sampleKeysResp sampleMetricsResp).keys_to_delete,
      k.key_id ≠ k2.key_id) ∧
    (∀ k ∈ (server_key_sync sampleDb 1 sampleKeysResp sampleMetricsResp).keys_to_update,
      ∀ k2 ∈ (server_key_sync sampleDb 1 sampleKeysResp sampleMetricsResp).keys_to_delete,
      k.key_id ≠ k2.key_id) ∧
    (∀ k ∈ (server_key_sync sampleDb 1 sampleKeysResp sampleMetricsResp).insert_values,
      k ∈ (server_key_sync sampleDb 1 sampleKeysResp sampleMetricsResp).keys_to_update) ∧
    (∀ r ∈ sampleDb.keys, r.server_ip = 1 → toOutlineKey r ∈ sampleRemoteKeys →
      toOutlineKey r ∉ (server_key_sync sampleDb 1 sampleKeysResp sampleMetricsResp).insert_values ∧
      (∀ k2 ∈ (server_key_sync sampleDb 1 sampleKeysResp sampleMetricsResp).keys_to_delete,
        r.key_id ≠ k2.key_id) ∧
      (∀ k2 ∈ (server_key_sync sampleDb 1 sampleKeysResp sampleMetricsResp).keys_to_update,
        r.key_id ≠ k2.key_id)) :=
  sync_sets_structure sampleDb 1 sampleServer sampleKeysResp sampleMetricsResp
    sampleRemoteKeys rfl rfl (by decide)

/-- C4: running server_key_sync twice with the same remote responses issues
    zero insert, delete or update writes on the second run, leaves the
    database of the first run untouched, and returns the same key list as the
    first run. -/
theorem server_key_sync_idempotent (db : Db) (s : Nat) (srv : OutlineServer)
    (kr : Option (HttpResponse KeysDoc)) (mr : Option (HttpResponse MetricsDoc))
    (R : List OutlineKey)
    (hs : server_read db s = some srv) (hok : get_keys kr mr = Except.ok R)
    (hR : (R.map OutlineKey.key_id).Nodup)
    (hD : ((serverRows db.keys s).map ServerKey.key_id).Nodup) :
    (server_key_sync (server_key_sync db s kr mr).db s kr mr).insert_values = [] ∧
    (server_key_sync (server_key_sync db s kr mr).db s kr mr).keys_to_delete = [] ∧
    (server_key_sync (server_key_sync db s kr mr).db s kr mr).keys_to_update = [] ∧
    (server_key_sync (server_key_sync db s kr mr).db s kr mr).db =
      (server_key_sync db s kr mr).db ∧
    (server_key_sync (server_key_sync db s kr mr).db s kr mr).result =
      (server_key_sync db s kr mr).result := by
  have hdb1 : (server_key_sync db s kr mr).db =
      { servers := db.servers, keys := sync_rows db s R } := by
    rw [server_key_sync_ok hs hok]
  have hres1 : (server_key_sync db s kr mr).result =
      SyncResult.keys (server_key_list { servers := db.servers, keys := sync_rows db s R } s) := by
    rw [server_key_sync_ok hs hok]
  have hs1 : server_read { servers := db.servers, keys := sync_rows db s R } s = some srv := hs
  have hconv1 : ∀ k ∈ R, ∃ r,
      r ∈ ({ servers := db.servers, keys := sync_rows db s R } : Db).keys ∧
      r.server_ip = s ∧ toOutlineKey r = k :=
    fun k hk => sync_mem_of_remote hR hD hk
  have hconv2 : ∀ r ∈ ({ servers := db.servers, keys := sync_rows db s R } : Db).keys,
      r.server_ip = s → toOutlineKey r ∈ R :=
    fun r hr hsip => sync_remote_of_mem hR hD hr hsip
  have h1 := sync_insert_values_nil_of_converged hconv1
  have h2 := sync_keys_to_delete_nil_of_converged hconv2
  have h3 := sync_keys_to_update_nil_of_converged hconv1
  have hrows : sync_rows { servers := db.servers, keys := sync_rows db s R } s R =
      sync_rows db s R := sync_rows_noop h1 h2 h3
  rw [hdb1, hres1, server_key_sync_ok hs1 hok, hrows]
  exact ⟨h1, h2, h3, rfl, rfl⟩

/-- C4 witness: the idempotence theorem applied to the sample database and
    the sample remote responses. -/
theorem server_key_sync_idempotent_witness :
    (server_key_sync (server_key_sync sampleDb 1 sampleKeysResp sampleMetricsResp).db 1
      sampleKeysResp sampleMetricsResp).insert_values = [] ∧
    (server_key_sync (server_key_sync sampleDb 1 sampleKeysResp sampleMetricsResp).db 1
      sampleKeysResp sampleMetricsResp).keys_to_delete = [] ∧
    (server_key_sync (server_key_sync sampleDb 1 sampleKeysResp sampleMetricsResp).db 1
      sampleKeysResp sampleMetricsResp).keys_to_update = [] ∧
    (server_key_sync (server_key_sync sampleDb 1 sampleKeysResp sampleMetricsResp).db 1
      sampleKeysResp sampleMetricsResp).db =
      (server_key_sync sampleDb 1 sampleKeysResp sampleMetricsResp).db ∧
    (server_key_sync (server_key_sync sampleDb 1 sampleKeysResp sampleMetricsResp).db 1
      sampleKeysResp sampleMetricsResp).result =
      (server_key_sync sampleDb 1 sampleKeysResp sampleMetricsResp).result :=
  server_key_sync_idempotent sampleDb 1 sampleServer sampleKeysResp sampleMetricsResp
    sampleRemoteKeys rfl rfl (by decide) (by decide)

/-- C5: at the failing input where the member is absent on both sides (no
    persisted ChatMember row for chat 1 and user 2, and the remote membership
    lookup failed so the remote member is None), the tracker does not no-op:
    the else branch evaluates the status attribute of None, raising
    AttributeError (modelled as Except.error ()), which aborts pre_process
    instead of leaving message processing untouched. -/
theorem track_chat_member_absent_both_raises :
    track_chat_member [{ chat_id := 1, user_id := 99, status := "member" }] 1 2 none =
      Except.error () := rfl

/-- C6: a key delete with a remote delete response other than 204 leaves the
    local database unchanged (the local row is kept) and reports failure; the
    local row is only removed after a remote 204. -/
theorem server_key_delete_remote_first (db : Db) (s : Nat) (k : Nat) (status : Nat)
    (h : status ≠ 204) :
    (server_key_delete db s k status).db = db ∧
    (server_key_delete db s k status).ok = false := by
  unfold server_key_delete
  cases hsr : server_read db s with
  | none => exact ⟨rfl, rfl⟩
  | some srv =>
    have hd : delete_key status = false := by
      simp [delete_key, h]
    rw [hd]
    exact ⟨rfl, rfl⟩

/-- C6 witness: a remote delete failing with status 500 on the sample
    database leaves it intact and returns failure. -/
theorem server_key_delete_remote_first_witness :
    (server_key_delete sampleDb 1 1 500).db = sampleDb ∧
    (server_key_delete sampleDb 1 1 500).ok = false :=
  server_key_delete_remote_first sampleDb 1 1 500 (by decide)

/-- C7: in enter_ip with a pending server_name, text that fails to parse as a
    network address leaves the machine in enter_ip with the proxy data
    (including the pending name) unchanged, while a parsed address stores the
    canonical address string as server_ip, keeps the pending name, and
    advances to enter_url. -/
theorem enter_server_ip_carry_over (st : FSMState) (nm txt : String)
    (htag : st.tag = MState.enter_ip) (hnm : st.data.server_name = some nm) :
    (ip_address txt = none →
      ∃ st2, enter_server_ip st txt = Except.ok st2 ∧ st2.tag = MState.enter_ip ∧
        st2.data = st.data) ∧
    (∀ ip, ip_address txt = some ip →
      ∃ st2, enter_server_ip st txt = Except.ok st2 ∧ st2.tag = MState.enter_url ∧
        st2.data.server_name = some nm ∧ st2.data.server_ip = some (ipToString ip)) := by
  constructor
  · intro hparse
    refine ⟨{ st with tag := MState.enter_ip }, ?_, rfl, rfl⟩
    unfold enter_server_ip
    rw [hparse]
  · intro ip hparse
    refine ⟨{ tag := MState.enter_url,
              data := { st.data with server_ip := some (ipToString ip) } }, ?_, rfl, ?_, rfl⟩
    · unfold enter_server_ip
      rw [hparse, hnm]
    · exact hnm

/-- C7 witness: from the sample enter_ip state carrying the pending name
    MyServer, the invalid input 999.999.999.999 re-prompts without advancing
    and without touching the proxy data. -/
theorem enter_server_ip_carry_over_witness :
    ∃ st2, enter_server_ip sampleFSMState "999.999.999.999" = Except.ok st2 ∧
      st2.tag = MState.enter_ip ∧ st2.data = sampleFSMState.data :=
  (enter_server_ip_carry_over sampleFSMState "MyServer" "999.999.999.999" rfl rfl).1 rfl

/-- C8: calling server_key_sync with a server ip absent from storage returns
    the failure value (Python False) without raising and leaves the database
    untouched. -/
theorem server_key_sync_not_found (db : Db) (s : Nat)
    (kr : Option (HttpResponse KeysDoc)) (mr : Option (HttpResponse MetricsDoc))
    (hs : server_read db s = none) :
    (server_key_sync db s kr mr).result = SyncResult.failure ∧
    (server_key_sync db s kr mr).db = db := by
  rw [server_key_sync_absent hs]
  exact ⟨rfl, rfl⟩

/-- C8 witness: ip 7 is not registered in the sample database. -/
theorem server_key_sync_not_found_witness :
    (server_key_sync sampleDb 7 none none).result = SyncResult.failure ∧
    (server_key_sync sampleDb 7 none none).db = sampleDb :=
  server_key_sync_not_found sampleDb 7 none none rfl

/-- C9: at the failing input (base url https://mgmt.example/abc, key id 1,
    limit 1000 bytes) the add_data_limit request goes to the literal path
    self.__keys_url/1/data-limit: the base management url is ignored, so the
    request url differs from the spec-prescribed
    /access-keys/1/data-limit relative to the base url. The 204 success test
    itself matches the claim. -/
theorem add_data_limit_literal_url_bug :
    (add_data_limit_request "https://mgmt.example/abc" 1 1000).url =
      "self.__keys_url/1/data-limit" ∧
    (add_data_limit_request "https://mgmt.example/abc" 1 1000).url ≠
      spec_data_limit_url "https://mgmt.example/abc" 1 ∧
    (add_data_limit_request "https://mgmt.example/abc" 1 1000).limit_bytes = 1000 ∧
    add_data_limit_ok 204 = true ∧
    add_data_limit_ok 500 = false := by
  refine ⟨by decide, by decide, rfl, rfl, rfl⟩

/-- C10: servers_list with mode active and with mode inactive both return the
    empty list on every database (the WHERE clause built from the constant
    Python identity comparisons never matches), while mode all returns every
    server row. -/
theorem servers_list_active_inactive_empty (db : Db) :
    servers_list db ListMode.active = [] ∧
    servers_list db ListMode.inactive = [] ∧
    servers_list db ListMode.all = db.servers := by
  refine ⟨?_, ?_, rfl⟩ <;>
    simp [servers_list, columnIsActiveIsTrue, columnIsActiveIsFalse]

end Ilfree
